import Mathlib

/-!
Shallow embedding of the SDGScript core (github.com/yuis-ice/sdgscript):
the static resource analyzer (class `ResourceAnalyzer`, packages/core/src/analyzer.ts),
the score calculator (`SDGCompiler.calculateScore`, packages/core/src/compiler.ts)
and the runtime tracker (`ResourceTracker` and the module-level helpers,
packages/runtime/src/index.ts).

Modelling conventions:
- JavaScript numbers are exact rationals (`ℚ`); every arithmetic operation the
  embedded code performs is closed under rational arithmetic (`Math.log10` is
  only ever applied to powers of ten, see `log10q`).
- A JS truthiness test on a number is `decide (q ≠ 0)`; on an optional number it
  is `otruthy` (absent and `0` are falsy; the rational model has no NaN).
- `x || d` on a number is `jsOr`, on an optional number `ojsOr`.
- A JS `Map` is an insertion-ordered association list; `mapSet`, `mapGet` and
  `mapDelete` mirror `Map.set`, `Map.get` and `Map.delete`.
- The mutable context objects handed to `ResourceTracker.startContext` live in
  an explicit heap (`ctxHeap`, addressed by natural numbers), because
  `startContext` mutates the caller's object in place and registers the
  reference, not a copy.  Metrics accumulators are never shared with callers
  before `endContext`, so they are stored by value.
- `console.warn` output is collected in a `warnings` list; emitted events are
  collected, in emission order, in an `events` list.  All `Date.now()` reads of
  one method invocation are passed in as one `now` argument.
-/

namespace SDGScript

/-- `x || d` for JavaScript numbers: `0` is falsy. -/
def jsOr (q d : ℚ) : ℚ := if q = 0 then d else q

/-- `x || d` for an optional JavaScript number: `undefined` and `0` are falsy. -/
def ojsOr (o : Option ℚ) (d : ℚ) : ℚ :=
  match o with
  | none => d
  | some q => if q = 0 then d else q

/-- Truthiness of an optional JavaScript number. -/
def otruthy (o : Option ℚ) : Bool :=
  match o with
  | none => false
  | some q => decide (q ≠ 0)

/-- Whether the character list `pat` sits at the head of the first list. -/
def charsStartWith : List Char → List Char → Bool
  | _, [] => true
  | [], _ :: _ => false
  | a :: as, b :: bs => a == b && charsStartWith as bs

/-- Whether `pat` occurs contiguously in the first list. -/
def charsHaveSub : List Char → List Char → Bool
  | [], pat => pat.isEmpty
  | a :: as, pat => charsStartWith (a :: as) pat || charsHaveSub as pat

/-- `String.prototype.includes`. -/
def includes (s pat : String) : Bool := charsHaveSub s.toList pat.toList

/-- Left-pad the decimal digits of `n` with zeros to width `k`. -/
def padZeros (n : ℕ) (k : ℕ) : String :=
  let s := toString n
  String.mk (List.replicate (k - s.length) '0') ++ s

/-- `Number.prototype.toFixed(3)` for the nonnegative rationals this model
prints: round to the nearest thousandth (ties up) and print three decimals. -/
def toFixed3 (q : ℚ) : String :=
  let n : ℤ := ⌊q * 1000 + 1 / 2⌋
  toString (n / 1000) ++ "." ++ padZeros (n % 1000).toNat 3

/-- Smallest `k ≤ 30` with `d ∣ 10 ^ k`, if any. -/
def decExp (d : ℕ) : Option ℕ := (List.range 31).find? (fun k => 10 ^ k % d == 0)

/-- Default JavaScript rendering `${q}` of a nonnegative number, for rationals
with a finite decimal expansion (all budgets this model prints). -/
def jsNumRepr (q : ℚ) : String :=
  match decExp q.den with
  | some 0 => toString q.num
  | some (k + 1) =>
      let n : ℤ := q.num * (10 ^ (k + 1)) / (q.den : ℤ)
      toString (n / 10 ^ (k + 1)) ++ "." ++ padZeros (n % 10 ^ (k + 1)).toNat (k + 1)
  | none => toString q.num ++ "/" ++ toString q.den

/-- `ResourceMetrics` from packages/core/src/types.ts.  Every record the
embedded code builds populates all six fields, so the fields are total here;
the `x || 0` reads of the source are kept as `jsOr`. -/
structure ResourceMetrics where
  energy : ℚ
  emissions : ℚ
  memory : ℚ
  networkCalls : ℚ
  ioOperations : ℚ
  computeComplexity : ℚ
  deriving DecidableEq, Repr, Inhabited

/-- `SDGAnnotation` from types.ts (name shortened). -/
structure SDGAnnot where
  goal : String
  carbonBudget : Option ℚ
  impact : Option (String × String)
  description : Option String
  tags : List String
  deriving DecidableEq, Repr, Inhabited

/-- The `type` field of a `Violation` (the last constructor name is shortened
from the source's `high_impact_no_annotation`). -/
inductive ViolationType where
  | carbon_budget_exceeded
  | inefficient_algorithm
  | high_impact_no_annot
  | missing_sdg_context
  deriving DecidableEq, Repr

inductive Severity where
  | warning
  | error
  deriving DecidableEq, Repr

structure Violation where
  type : ViolationType
  severity : Severity
  message : String
  suggestion : Option String
  deriving DecidableEq, Repr

/-- The fragment of the ts-morph AST the analyzer inspects: call expressions
(carrying the callee's source text, `expr.getExpression().getText()`) and the
four iteration statements; any other node only contributes its children. -/
inductive TsNode where
  | callExpr (calleeText : String) (children : List TsNode)
  | forStmt (children : List TsNode)
  | whileStmt (children : List TsNode)
  | forInStmt (children : List TsNode)
  | forOfStmt (children : List TsNode)
  | otherNode (children : List TsNode)

def childrenOf : TsNode → List TsNode
  | .callExpr _ cs | .forStmt cs | .whileStmt cs | .forInStmt cs
  | .forOfStmt cs | .otherNode cs => cs

mutual

/-- A node followed by all of its descendants, in document order. -/
def subtreeNodes : TsNode → List TsNode
  | .callExpr c cs => .callExpr c cs :: subtreeList cs
  | .forStmt cs => .forStmt cs :: subtreeList cs
  | .whileStmt cs => .whileStmt cs :: subtreeList cs
  | .forInStmt cs => .forInStmt cs :: subtreeList cs
  | .forOfStmt cs => .forOfStmt cs :: subtreeList cs
  | .otherNode cs => .otherNode cs :: subtreeList cs

def subtreeList : List TsNode → List TsNode
  | [] => []
  | c :: cs => subtreeNodes c ++ subtreeList cs

end

/-- `node.forEachDescendant` visits exactly these nodes, in this order. -/
def descendants (n : TsNode) : List TsNode := subtreeList (childrenOf n)

/-- `Node.isForStatement / isWhileStatement / isForInStatement / isForOfStatement`. -/
def isLoopNode : TsNode → Bool
  | .forStmt _ | .whileStmt _ | .forInStmt _ | .forOfStmt _ => true
  | _ => false

/-- The callee-text test of `ResourceAnalyzer.countNetworkCalls`. -/
def isNetworkCall : TsNode → Bool
  | .callExpr text _ =>
      includes text "fetch" || includes text "axios" ||
      includes text "http.request" || includes text "$.ajax"
  | _ => false

/-- The callee-text test of `ResourceAnalyzer.countIOOperations`. -/
def isIOCall : TsNode → Bool
  | .callExpr text _ =>
      includes text "readFile" || includes text "writeFile" ||
      includes text "fs." || includes text "localStorage" ||
      includes text "sessionStorage"
  | _ => false

/-- The callee-text test of `ResourceAnalyzer.detectAIModelUsage`. -/
def isAICall : TsNode → Bool
  | .callExpr text _ =>
      includes text "tensorflow" || includes text "torch" ||
      includes text "openai" || includes text "huggingface" ||
      includes text "predict" || includes text "inference"
  | _ => false

/-- `ResourceAnalyzer.countNetworkCalls` (analyzer.ts). -/
def countNetworkCalls (node : TsNode) (metrics : ResourceMetrics) : ResourceMetrics :=
  (descendants node).foldl
    (fun m d =>
      if isNetworkCall d then { m with networkCalls := jsOr m.networkCalls 0 + 1 } else m)
    metrics

/-- `ResourceAnalyzer.analyzeLoops` (analyzer.ts): `loopDepth` is incremented on
every loop descendant and never decremented; `maxDepth` is the running maximum
(the fold state is the pair `(loopDepth, maxDepth)`). -/
def analyzeLoops (node : TsNode) (metrics : ResourceMetrics) : ResourceMetrics :=
  let st :=
    (descendants node).foldl
      (fun (st : ℕ × ℕ) d =>
        if isLoopNode d then (st.1 + 1, max st.2 (st.1 + 1)) else st)
      (0, 0)
  { metrics with computeComplexity := (10 : ℚ) ^ st.2 }

/-- `ResourceAnalyzer.countIOOperations` (analyzer.ts). -/
def countIOOperations (node : TsNode) (metrics : ResourceMetrics) : ResourceMetrics :=
  (descendants node).foldl
    (fun m d =>
      if isIOCall d then { m with ioOperations := jsOr m.ioOperations 0 + 1 } else m)
    metrics

/-- `ResourceAnalyzer.detectAIModelUsage` (analyzer.ts). -/
def detectAIModelUsage (node : TsNode) (metrics : ResourceMetrics) : ResourceMetrics :=
  (descendants node).foldl
    (fun m d =>
      if isAICall d then
        { m with
          energy := jsOr m.energy 0 + 50
          computeComplexity := jsOr m.computeComplexity 1 * 1000 }
      else m)
    metrics

/-- `Math.log10`, modelled on the inputs the pipeline produces: the
`computeComplexity` reaching the energy formula is always a positive power of
ten and `log10q (10 ^ m) = m`. -/
def log10q (q : ℚ) : ℚ := (Nat.log 10 q.num.toNat : ℚ)

/-- `ResourceAnalyzer.estimateEnergyUsage` (analyzer.ts). -/
def estimateEnergyUsage (metrics : ResourceMetrics) : ResourceMetrics :=
  let baseEnergy : ℚ :=
    0.01 + jsOr metrics.networkCalls 0 * 0.001 + jsOr metrics.ioOperations 0 * 0.0005 +
      log10q (jsOr metrics.computeComplexity 1) * 0.01
  let energy := jsOr metrics.energy 0 + baseEnergy
  { metrics with energy := energy, emissions := jsOr energy 0 * 500 }

/-- The all-zero metrics record (`computeComplexity` 1) that both
`ResourceAnalyzer.analyzeFunction` and `ResourceTracker.startContext` build. -/
def initialMetrics : ResourceMetrics :=
  { energy := 0, emissions := 0, memory := 0, networkCalls := 0
    ioOperations := 0, computeComplexity := 1 }

/-- `ResourceAnalyzer.analyzeFunction` (analyzer.ts): the five passes in source
order. -/
def analyzeFunction (node : TsNode) : ResourceMetrics :=
  estimateEnergyUsage
    (detectAIModelUsage node
      (countIOOperations node
        (analyzeLoops node
          (countNetworkCalls node initialMetrics))))

/-- The message of a `carbon_budget_exceeded` violation:
`Energy usage (${energy.toFixed(3)}kWh) exceeds carbon budget (${budget}kWh)`. -/
def cbeMessage (energy budget : ℚ) : String :=
  "Energy usage (" ++ toFixed3 energy ++ "kWh) exceeds carbon budget (" ++
    jsNumRepr budget ++ "kWh)"

/-- The `carbon_budget_exceeded` violation record pushed by
`ResourceAnalyzer.detectViolations`. -/
def cbeViolation (energy budget : ℚ) : Violation :=
  { type := .carbon_budget_exceeded
    severity := .error
    message := cbeMessage energy budget
    suggestion := some "Consider optimizing algorithms or reducing network calls" }

/-- The `inefficient_algorithm` violation record pushed by
`ResourceAnalyzer.detectViolations`. -/
def inefficientViolation : Violation :=
  { type := .inefficient_algorithm
    severity := .warning
    message := "High computational complexity detected"
    suggestion := some "Consider using more efficient algorithms or caching" }

/-- The `high_impact_no_annotation` violation record pushed by
`ResourceAnalyzer.detectViolations`. -/
def highImpactViolation : Violation :=
  { type := .high_impact_no_annot
    severity := .warning
    message := "High energy consumption function lacks SDG annotations"
    suggestion := some "Add @sdg annotation to document sustainability impact" }

/-- `ResourceAnalyzer.detectViolations` (analyzer.ts).  The guard of the first
loop is the source's
`annotation.carbonBudget && metrics.energy && metrics.energy > annotation.carbonBudget`. -/
def detectViolations (metrics : ResourceMetrics) (anns : List SDGAnnot) : List Violation :=
  let violations : List Violation := []
  let violations :=
    anns.foldl
      (fun vs annot =>
        if otruthy annot.carbonBudget && decide (metrics.energy ≠ 0) &&
            decide (metrics.energy > annot.carbonBudget.getD 0) then
          vs ++ [cbeViolation metrics.energy (annot.carbonBudget.getD 0)]
        else vs)
      violations
  let violations :=
    if decide (metrics.computeComplexity ≠ 0) && decide (metrics.computeComplexity > 1000) then
      violations ++ [inefficientViolation]
    else violations
  let violations :=
    if decide (metrics.energy ≠ 0) && decide (metrics.energy > 10) && (anns.length == 0) then
      violations ++ [highImpactViolation]
    else violations
  violations

/-- `SDGCompiler.calculateScore` (compiler.ts).  `metrics.energy` is always
defined in this model, so the `!== undefined` guard of the source is met. -/
def calculateScore (metrics : ResourceMetrics) (violations : List Violation)
    (anns : List SDGAnnot) : ℚ :=
  let score : ℚ := 100
  let score :=
    violations.foldl (fun s v => s - (if v.severity == .error then 20 else 10)) score
  let score :=
    if metrics.energy < 0.1 then score + 10
    else if metrics.energy > 10 then score - 15
    else score
  let score := score + (anns.length : ℚ) * 5
  max 0 (min 100 score)

/-- `SDGContext` from packages/runtime/src/index.ts. -/
structure SDGContext where
  goal : String
  carbonBudget : Option ℚ
  description : Option String
  startTime : Option ℚ
  maxDuration : Option ℚ
  deriving DecidableEq, Repr, Inhabited

/-- A `Partial<ResourceMetrics>` argument, as passed to `trackResource`. -/
structure ResourceUsage where
  energy : Option ℚ
  emissions : Option ℚ
  memory : Option ℚ
  networkCalls : Option ℚ
  ioOperations : Option ℚ
  computeComplexity : Option ℚ
  deriving DecidableEq, Repr, Inhabited

/-- The usage record whose every field is absent. -/
def noUsage : ResourceUsage :=
  { energy := none, emissions := none, memory := none, networkCalls := none
    ioOperations := none, computeComplexity := none }

inductive TrackingEventType where
  | context_started
  | context_ended
  | resource_tracked
  | carbon_budget_exceeded
  deriving DecidableEq, Repr

/-- `TrackingEvent` from packages/runtime/src/index.ts; optional payload fields
are `none` when the emitting site does not set them. -/
structure TrackingEvent where
  type : TrackingEventType
  contextId : String
  context : Option SDGContext
  metrics : Option ResourceMetrics
  resourceType : Option String
  usage : Option ResourceUsage
  totalMetrics : Option ResourceMetrics
  duration : Option ℚ
  timestamp : ℚ
  deriving DecidableEq, Repr

/-- `Map.set`: overwrite in place if the key is present, else append. -/
def mapSet {α : Type} (m : List (String × α)) (k : String) (v : α) : List (String × α) :=
  if m.any (fun kv => kv.1 == k) then
    m.map (fun kv => if kv.1 == k then (k, v) else kv)
  else m ++ [(k, v)]

/-- `Map.get`, as an `Option` (`undefined` is `none`). -/
def mapGet {α : Type} (m : List (String × α)) (k : String) : Option α :=
  (m.find? (fun kv => kv.1 == k)).map (fun kv => kv.2)

/-- `Map.delete`. -/
def mapDelete {α : Type} (m : List (String × α)) (k : String) : List (String × α) :=
  m.filter (fun kv => kv.1 != k)

/-- Read a context object out of the heap (addresses are always in range in
runs of the embedded code). -/
def heapGet (h : List SDGContext) (p : ℕ) : SDGContext := h.getD p default

/-- Overwrite the heap cell at `p`. -/
def heapSet (h : List SDGContext) (p : ℕ) (c : SDGContext) : List SDGContext := h.set p c

/-- The state of the `ResourceTracker` singleton together with its observable
environment: the heap of caller-owned context objects, the `console.warn` log
and the events emitted so far. -/
structure ResourceTracker where
  ctxHeap : List SDGContext
  activeContexts : List (String × ℕ)
  metrics : List (String × ResourceMetrics)
  events : List TrackingEvent
  warnings : List String
  deriving DecidableEq, Repr

namespace ResourceTracker

/-- `ResourceTracker.startContext` (runtime/src/index.ts): writes `startTime`
into the caller's context object at heap address `p` and registers that same
address. -/
def startContext (s : ResourceTracker) (id : String) (p : ℕ) (now : ℚ) : ResourceTracker :=
  let ctx := { heapGet s.ctxHeap p with startTime := some now }
  { s with
    ctxHeap := heapSet s.ctxHeap p ctx
    activeContexts := mapSet s.activeContexts id p
    metrics := mapSet s.metrics id initialMetrics
    events := s.events ++
      [{ type := .context_started, contextId := id, context := some ctx
         metrics := none, resourceType := none, usage := none, totalMetrics := none
         duration := none, timestamp := now }] }

/-- The field-by-field accumulation step of `ResourceTracker.trackResource`:
truthy additive fields are summed, a truthy `memory` takes the running
maximum. -/
def applyUsage (m : ResourceMetrics) (usage : ResourceUsage) : ResourceMetrics :=
  let m := if otruthy usage.energy then
    { m with energy := jsOr m.energy 0 + usage.energy.getD 0 } else m
  let m := if otruthy usage.emissions then
    { m with emissions := jsOr m.emissions 0 + usage.emissions.getD 0 } else m
  let m := if otruthy usage.memory then
    { m with memory := max (jsOr m.memory 0) (usage.memory.getD 0) } else m
  let m := if otruthy usage.networkCalls then
    { m with networkCalls := jsOr m.networkCalls 0 + usage.networkCalls.getD 0 } else m
  let m := if otruthy usage.ioOperations then
    { m with ioOperations := jsOr m.ioOperations 0 + usage.ioOperations.getD 0 } else m
  m

/-- `ResourceTracker.trackResource` (runtime/src/index.ts). -/
def trackResource (s : ResourceTracker) (contextId : String) (resourceType : String)
    (usage : ResourceUsage) (now : ℚ) : ResourceTracker :=
  match mapGet s.metrics contextId with
  | none =>
      { s with warnings := s.warnings ++ ["No active context found for ID: " ++ contextId] }
  | some m =>
      let m := applyUsage m usage
      { s with
        metrics := mapSet s.metrics contextId m
        events := s.events ++
          [{ type := .resource_tracked, contextId := contextId, context := none
             metrics := none, resourceType := some resourceType, usage := some usage
             totalMetrics := some m, duration := none, timestamp := now }] }

/-- `ResourceTracker.endContext` (runtime/src/index.ts): returns the final
metrics (or `none`) together with the state after the emissions and the two
deletions. -/
def endContext (s : ResourceTracker) (id : String) (now : ℚ) :
    Option ResourceMetrics × ResourceTracker :=
  match mapGet s.activeContexts id, mapGet s.metrics id with
  | some p, some m =>
      let context := heapGet s.ctxHeap p
      let duration := now - ojsOr context.startTime 0
      let s :=
        if otruthy context.carbonBudget && decide (m.energy ≠ 0) &&
            decide (m.energy > context.carbonBudget.getD 0) then
          { s with events := s.events ++
            [{ type := .carbon_budget_exceeded, contextId := id, context := some context
               metrics := some m, resourceType := none, usage := none
               totalMetrics := none, duration := none, timestamp := now }] }
        else s
      let s :=
        { s with events := s.events ++
          [({ type := .context_ended, contextId := id, context := some context
              metrics := some m, resourceType := none, usage := none
              totalMetrics := none, duration := some duration,
              timestamp := now } : TrackingEvent)] }
      (some m,
        { s with
          activeContexts := mapDelete s.activeContexts id
          metrics := mapDelete s.metrics id })
  | _, _ => (none, s)

/-- `ResourceTracker.getActiveContexts`: a fresh `Map` copied from the live
one (so the returned list is a stable snapshot). -/
def getActiveContexts (s : ResourceTracker) : List (String × ℕ) := s.activeContexts

/-- `ResourceTracker.getCurrentMetrics`: `this.metrics.get(contextId) || null`. -/
def getCurrentMetrics (s : ResourceTracker) (contextId : String) : Option ResourceMetrics :=
  mapGet s.metrics contextId

end ResourceTracker

/-- The module-level `trackResource` helper (runtime/src/index.ts): fans the
usage out to every context in a snapshot of the active-context map. -/
def trackResource (s : ResourceTracker) (resourceType : String) (usage : ResourceUsage)
    (now : ℚ) : ResourceTracker :=
  let activeContexts := s.getActiveContexts
  activeContexts.foldl (fun st kv => st.trackResource kv.1 resourceType usage now) s

/-! Spec-side definitions: restatements of quantities the specification talks
about, written from the specification's words so the theorems can compare them
with the embedded code. -/

/-- Number of network-call descendants of a body (the spec's `networkCalls`). -/
def networkCallCount (node : TsNode) : ℕ :=
  (descendants node).countP (fun d => isNetworkCall d)

/-- Number of I/O-call descendants of a body (the spec's `ioOperations`). -/
def ioOperationCount (node : TsNode) : ℕ :=
  (descendants node).countP (fun d => isIOCall d)

/-- Number of heavy-inference call descendants of a body (the spec's `k`). -/
def aiCallCount (node : TsNode) : ℕ :=
  (descendants node).countP (fun d => isAICall d)

/-- Total number of iteration-construct descendants of a body. -/
def loopCount (node : TsNode) : ℕ :=
  (descendants node).countP (fun d => isLoopNode d)

mutual

/-- Spec-side definition for claim C2: the maximum lexical nesting depth of
iteration constructs anywhere below the node (the spec's `D`). -/
def specLoopDepth : TsNode → ℕ
  | .callExpr _ cs => specLoopDepthList cs
  | .forStmt cs => specLoopDepthList cs
  | .whileStmt cs => specLoopDepthList cs
  | .forInStmt cs => specLoopDepthList cs
  | .forOfStmt cs => specLoopDepthList cs
  | .otherNode cs => specLoopDepthList cs

/-- Maximum, over the nodes of the list, of the child's nesting depth counting
the child itself when it is a loop. -/
def specLoopDepthList : List TsNode → ℕ
  | [] => 0
  | c :: cs =>
      max ((if isLoopNode c then 1 else 0) + specLoopDepth c) (specLoopDepthList cs)

end

/-- The spec's `emissions == energy × 500` invariant on a metrics record. -/
def emissionsInv (m : ResourceMetrics) : Prop := m.emissions = m.energy * 500

/-- The spec's energy adjustment in the score formula. -/
def adjustment (energy : ℚ) : ℚ :=
  if energy < 0.1 then 10 else if energy > 10 then -15 else 0

/-- Number of error-severity violations in a list. -/
def errorCount (l : List Violation) : ℕ :=
  (l.filter (fun v => v.severity == Severity.error)).length

/-- Number of warning-severity violations in a list. -/
def warningCount (l : List Violation) : ℕ :=
  (l.filter (fun v => v.severity == Severity.warning)).length

/-- Spec-side form of the per-annotation budget check, with the truthiness
tests of the source spelled out as explicit nonzero conditions. -/
def cbeCheckSpec (metrics : ResourceMetrics) (a : SDGAnnot) : Option Violation :=
  match a.carbonBudget with
  | some b =>
      if b ≠ 0 ∧ metrics.energy ≠ 0 ∧ metrics.energy > b then
        some (cbeViolation metrics.energy b)
      else none
  | none => none

/-- The net amount `trackResource` adds for one optional usage field: the
field's value when it is present and truthy, `0` otherwise (which coincides
with `Option.getD 0`). -/
def effAdd (o : Option ℚ) : ℚ := if otruthy o then o.getD 0 else 0

/-- The `carbon_budget_exceeded` event emitted by `endContext`. -/
def cbeEvent (id : String) (ctx : SDGContext) (m : ResourceMetrics) (now : ℚ) :
    TrackingEvent :=
  { type := .carbon_budget_exceeded, contextId := id, context := some ctx
    metrics := some m, resourceType := none, usage := none
    totalMetrics := none, duration := none, timestamp := now }

/-- The `context_ended` event emitted by `endContext`. -/
def endedEvent (id : String) (ctx : SDGContext) (m : ResourceMetrics)
    (duration now : ℚ) : TrackingEvent :=
  { type := .context_ended, contextId := id, context := some ctx
    metrics := some m, resourceType := none, usage := none
    totalMetrics := none, duration := some duration, timestamp := now }

/-! Concrete instances used by counterexamples, scenarios and witnesses. -/

/-- A tracker state with empty registry over a given heap of caller-owned
context objects. -/
def freshTracker (h : List SDGContext) : ResourceTracker :=
  { ctxHeap := h, activeContexts := [], metrics := [], events := [], warnings := [] }

/-- A context object with no declared budget. -/
def plainCtx : SDGContext :=
  { goal := "g", carbonBudget := none, description := none
    startTime := none, maxDuration := none }

/-- A function body consisting of two sibling loops (C2's failing input). -/
def twoSiblingLoops : TsNode := .otherNode [.forStmt [], .forStmt []]

/-- Metrics with energy 5 and no other signals. -/
def energy5Metrics : ResourceMetrics :=
  { energy := 5, emissions := 2500, memory := 0, networkCalls := 0
    ioOperations := 0, computeComplexity := 1 }

/-- Metrics with energy 1.5 and no other signals. -/
def energy15tenthsMetrics : ResourceMetrics :=
  { energy := 3 / 2, emissions := 750, memory := 0, networkCalls := 0
    ioOperations := 0, computeComplexity := 1 }

/-- An annotation declaring a zero carbon budget. -/
def zeroBudgetAnnot : SDGAnnot :=
  { goal := "Goal13", carbonBudget := some 0, impact := none
    description := none, tags := [] }

/-- An annotation declaring a carbon budget of 1 kWh. -/
def oneBudgetAnnot : SDGAnnot :=
  { goal := "Goal13", carbonBudget := some 1, impact := none
    description := none, tags := [] }

/-- C1 counterexample state: one started context, then one accumulate carrying
only energy. -/
def c1State : ResourceTracker :=
  ((freshTracker [plainCtx]).startContext "c1" 0 100).trackResource "c1" "manual"
    { noUsage with energy := some 1 } 101

/-- The accumulator `c1State` holds for `"c1"`. -/
def c1Metrics : ResourceMetrics :=
  { energy := 1, emissions := 0, memory := 0, networkCalls := 0
    ioOperations := 0, computeComplexity := 1 }

/-- A balanced usage record (emissions = energy × 500) for the C1 witness. -/
def balancedUsage : ResourceUsage :=
  { noUsage with energy := some 1, emissions := some 500 }

/-- Scenario C, after `start("c1")` and accumulates of 0.2 and 0.3 kWh. -/
def scenCState : ResourceTracker :=
  (((freshTracker [plainCtx]).startContext "c1" 0 100).trackResource "c1" "t"
      { noUsage with energy := some (1 / 5) } 101).trackResource "c1" "t"
    { noUsage with energy := some (3 / 10) } 102

/-- Scenario E: contexts `"a"` and `"b"` both active, then one broadcast
accumulate of a single network call. -/
def scenEState : ResourceTracker :=
  trackResource (((freshTracker [plainCtx, plainCtx]).startContext "a" 0 1).startContext "b" 1 2)
    "network" { noUsage with networkCalls := some 1 } 3

/-- C7 counterexample state: a live context that declared `carbonBudget: 0`
whose accumulator has positive energy. -/
def c7State : ResourceTracker :=
  { ctxHeap := [{ goal := "g", carbonBudget := some 0, description := none
                  startTime := some 0, maxDuration := none }]
    activeContexts := [("c1", 0)]
    metrics := [("c1", c1Metrics)]
    events := []
    warnings := [] }

/-- C7 witness state: a live context that declared `carbonBudget: 0.5` whose
accumulator holds energy 1 (so the budget is exceeded). -/
def c7WitState : ResourceTracker :=
  { ctxHeap := [{ goal := "g", carbonBudget := some (1 / 2), description := none
                  startTime := some 0, maxDuration := none }]
    activeContexts := [("c1", 0)]
    metrics := [("c1", c1Metrics)]
    events := []
    warnings := [] }

/-- Scenario D start state: only `"c1"` has been started. -/
def scenD1State : ResourceTracker :=
  (freshTracker [plainCtx]).startContext "c1" 0 100

/-- The accumulator after the balanced C1-witness accumulate. -/
def balancedMetrics : ResourceMetrics :=
  { energy := 1, emissions := 500, memory := 0, networkCalls := 0
    ioOperations := 0, computeComplexity := 1 }

/-! Helper lemmas. -/

theorem jsOr_zero (q : ℚ) : jsOr q 0 = q := by
  unfold jsOr
  split <;> simp_all

theorem jsOr_of_ne (q d : ℚ) (h : q ≠ 0) : jsOr q d = q := if_neg h

theorem effAdd_eq_getD (o : Option ℚ) : effAdd o = o.getD 0 := by
  unfold effAdd otruthy
  match o with
  | none => simp
  | some q =>
      by_cases h : q = 0 <;> simp [h]

theorem otruthy_false_getD (o : Option ℚ) (h : ¬ otruthy o = true) : o.getD 0 = 0 := by
  rcases o with _ | q
  · rfl
  · unfold otruthy at h
    simp only [decide_eq_true_eq, not_not] at h
    simp [h]

theorem find?_cons_pos {α : Type} (p : α → Bool) (a : α) (l : List α) (h : p a = true) :
    List.find? p (a :: l) = some a := by
  rw [List.find?_cons, h]

theorem find?_cons_neg {α : Type} (p : α → Bool) (a : α) (l : List α) (h : p a = false) :
    List.find? p (a :: l) = List.find? p l := by
  rw [List.find?_cons, h]

theorem find?_set_list {α : Type} (m : List (String × α)) (k : String) (v : α) :
    (m.map (fun kv => if kv.1 == k then (k, v) else kv)).find? (fun kv => kv.1 == k) =
      if m.any (fun kv => kv.1 == k) then some (k, v) else none := by
  induction m with
  | nil => rfl
  | cons kv t ih =>
      rw [List.map_cons, List.any_cons]
      by_cases h : kv.1 = k
      · have hb : (kv.1 == k) = true := by simp [h]
        rw [if_pos hb, find?_cons_pos _ (k, v) _ (by simp), hb, Bool.true_or, if_pos rfl]
      · have hb : (kv.1 == k) = false := by simp [h]
        rw [if_neg (by simp [h]), find?_cons_neg _ kv _ hb, ih, hb, Bool.false_or]

theorem mapGet_mapSet_self {α : Type} (m : List (String × α)) (k : String) (v : α) :
    mapGet (mapSet m k v) k = some v := by
  unfold mapGet mapSet
  by_cases h : m.any (fun kv => kv.1 == k)
  · rw [if_pos h, find?_set_list, if_pos h]
    rfl
  · rw [if_neg h, List.find?_append]
    have hnone : m.find? (fun kv => kv.1 == k) = none := by
      rw [List.find?_eq_none]
      intro x hx hpx
      exact h (List.any_eq_true.mpr ⟨x, hx, hpx⟩)
    simp [hnone, List.find?]

theorem find?_set_list_ne {α : Type} (m : List (String × α)) (k k' : String) (v : α)
    (h : k' ≠ k) :
    (m.map (fun kv => if kv.1 == k then (k, v) else kv)).find? (fun kv => kv.1 == k') =
      m.find? (fun kv => kv.1 == k') := by
  induction m with
  | nil => rfl
  | cons kv t ih =>
      rw [List.map_cons]
      by_cases hk : kv.1 = k
      · have hb : (kv.1 == k) = true := by simp [hk]
        have h1 : ((k, v).1 == k') = false := by
          simp only [beq_eq_false_iff_ne, ne_eq]
          exact fun e => h e.symm
        have h2 : (kv.1 == k') = false := by
          simp only [beq_eq_false_iff_ne, ne_eq, hk]
          exact fun e => h e.symm
        rw [if_pos hb, find?_cons_neg _ (k, v) _ h1, find?_cons_neg _ kv _ h2, ih]
      · rw [if_neg (by simp [hk])]
        by_cases hk' : kv.1 = k'
        · have hp : (kv.1 == k') = true := by simp [hk']
          rw [find?_cons_pos _ kv _ hp, find?_cons_pos _ kv _ hp]
        · have hp : (kv.1 == k') = false := by simp [hk']
          rw [find?_cons_neg _ kv _ hp, find?_cons_neg _ kv _ hp, ih]

theorem mapGet_mapSet_ne {α : Type} (m : List (String × α)) (k k' : String) (v : α)
    (h : k' ≠ k) :
    mapGet (mapSet m k v) k' = mapGet m k' := by
  unfold mapGet mapSet
  by_cases hm : m.any (fun kv => kv.1 == k)
  · rw [if_pos hm, find?_set_list_ne _ _ _ _ h]
  · rw [if_neg hm, List.find?_append]
    have hb : ((k, v).1 == k') = false := by
      simp only [beq_eq_false_iff_ne, ne_eq]
      exact fun e => h e.symm
    rw [find?_cons_neg _ (k, v) _ hb]
    cases hf : m.find? (fun kv => kv.1 == k') <;> simp [hf]

theorem mapGet_mapDelete_self {α : Type} (m : List (String × α)) (k : String) :
    mapGet (mapDelete m k) k = none := by
  unfold mapGet mapDelete
  induction m with
  | nil => rfl
  | cons kv t ih =>
      rw [List.filter_cons]
      by_cases h : kv.1 = k
      · rw [if_neg (by simp [h])]
        exact ih
      · rw [if_pos (by simp [h]), find?_cons_neg _ kv _ (by simp [h])]
        exact ih

theorem log10q_pow (j : ℕ) : log10q ((10 : ℚ) ^ j) = j := by
  have h : ((10 : ℚ) ^ j) = ((10 ^ j : ℕ) : ℚ) := by push_cast; ring
  rw [log10q, h, Rat.num_natCast, Int.toNat_natCast, Nat.log_pow (by norm_num)]

theorem pow_mul_pow_eq (L k : ℕ) :
    (10 : ℚ) ^ L * (1000 : ℚ) ^ k = (10 : ℚ) ^ (L + 3 * k) := by
  have h : (1000 : ℚ) = 10 ^ 3 := by norm_num
  rw [h, ← pow_mul, ← pow_add]

theorem foldl_network (l : List TsNode) (m : ResourceMetrics) :
    l.foldl
      (fun m d =>
        if isNetworkCall d then { m with networkCalls := jsOr m.networkCalls 0 + 1 } else m)
      m =
      { m with networkCalls := m.networkCalls + (l.countP (fun d => isNetworkCall d) : ℚ) } := by
  induction l generalizing m with
  | nil => simp
  | cons d t ih =>
      rw [List.foldl_cons]
      by_cases h : isNetworkCall d
      · rw [if_pos h, ih, List.countP_cons, if_pos h, jsOr_zero]
        refine congrArg (fun x => { m with networkCalls := x }) ?_
        push_cast
        ring
      · rw [if_neg h, ih, List.countP_cons, if_neg h]
        simp

theorem foldl_io (l : List TsNode) (m : ResourceMetrics) :
    l.foldl
      (fun m d =>
        if isIOCall d then { m with ioOperations := jsOr m.ioOperations 0 + 1 } else m)
      m =
      { m with ioOperations := m.ioOperations + (l.countP (fun d => isIOCall d) : ℚ) } := by
  induction l generalizing m with
  | nil => simp
  | cons d t ih =>
      rw [List.foldl_cons]
      by_cases h : isIOCall d
      · rw [if_pos h, ih, List.countP_cons, if_pos h, jsOr_zero]
        refine congrArg (fun x => { m with ioOperations := x }) ?_
        push_cast
        ring
      · rw [if_neg h, ih, List.countP_cons, if_neg h]
        simp

theorem foldl_loopdepth (l : List TsNode) (a : ℕ) :
    l.foldl
      (fun (st : ℕ × ℕ) d => if isLoopNode d then (st.1 + 1, max st.2 (st.1 + 1)) else st)
      (a, a) =
      (a + l.countP (fun d => isLoopNode d), a + l.countP (fun d => isLoopNode d)) := by
  induction l generalizing a with
  | nil => simp
  | cons d t ih =>
      rw [List.foldl_cons]
      by_cases h : isLoopNode d
      · rw [if_pos h, List.countP_cons, if_pos h]
        have hmax : max (a, a).2 ((a, a).1 + 1) = a + 1 := Nat.max_eq_right (Nat.le_succ a)
        rw [hmax]
        have hfst : ((a, a).1 + 1 : ℕ) = a + 1 := rfl
        rw [hfst, ih]
        rw [Prod.mk.injEq]
        omega
      · rw [if_neg h, List.countP_cons, if_neg h, ih]
        simp

theorem foldl_ai (l : List TsNode) (m : ResourceMetrics) (hc : m.computeComplexity ≠ 0) :
    l.foldl
      (fun m d =>
        if isAICall d then
          { m with
            energy := jsOr m.energy 0 + 50
            computeComplexity := jsOr m.computeComplexity 1 * 1000 }
        else m)
      m =
      { m with
        energy := m.energy + 50 * (l.countP (fun d => isAICall d) : ℚ)
        computeComplexity :=
          m.computeComplexity * 1000 ^ (l.countP (fun d => isAICall d)) } := by
  induction l generalizing m with
  | nil => simp
  | cons d t ih =>
      rw [List.foldl_cons]
      by_cases h : isAICall d
      · rw [if_pos h, jsOr_zero, jsOr_of_ne m.computeComplexity 1 hc]
        rw [ih { m with
              energy := m.energy + 50
              computeComplexity := m.computeComplexity * 1000 }
            (by exact mul_ne_zero hc (by norm_num))]
        rw [List.countP_cons, if_pos h]
        simp only [ResourceMetrics.mk.injEq, and_true, true_and, eq_self_iff_true]
        constructor
        · push_cast
          ring
        · ring
      · rw [if_neg h, ih m hc, List.countP_cons, if_neg h]
        simp

theorem estimateEnergyUsage_eq (m : ResourceMetrics) (hc : m.computeComplexity ≠ 0) :
    estimateEnergyUsage m =
      { m with
        energy := m.energy + (0.01 + m.networkCalls * 0.001 + m.ioOperations * 0.0005 +
          log10q m.computeComplexity * 0.01)
        emissions := (m.energy + (0.01 + m.networkCalls * 0.001 + m.ioOperations * 0.0005 +
          log10q m.computeComplexity * 0.01)) * 500 } := by
  simp only [estimateEnergyUsage, jsOr_zero, jsOr_of_ne _ _ hc]

/-- The emissions field written by `estimateEnergyUsage` is always 500 times
the energy field it writes. -/
theorem estimateEnergyUsage_emissions (m : ResourceMetrics) :
    (estimateEnergyUsage m).emissions = (estimateEnergyUsage m).energy * 500 := by
  simp only [estimateEnergyUsage, jsOr_zero]

/-- Closed form of the full static pipeline `ResourceAnalyzer.analyzeFunction`. -/
theorem analyzeFunction_eq (node : TsNode) :
    analyzeFunction node =
      ⟨50 * (aiCallCount node : ℚ) + (0.01 + (networkCallCount node : ℚ) * 0.001 +
          (ioOperationCount node : ℚ) * 0.0005 +
          ((loopCount node : ℚ) + 3 * (aiCallCount node : ℚ)) * 0.01),
        (50 * (aiCallCount node : ℚ) + (0.01 + (networkCallCount node : ℚ) * 0.001 +
          (ioOperationCount node : ℚ) * 0.0005 +
          ((loopCount node : ℚ) + 3 * (aiCallCount node : ℚ)) * 0.01)) * 500,
        0, (networkCallCount node : ℚ), (ioOperationCount node : ℚ),
        (10 : ℚ) ^ loopCount node * (1000 : ℚ) ^ aiCallCount node⟩ := by
  have h1 : countNetworkCalls node initialMetrics =
      (⟨0, 0, 0, (networkCallCount node : ℚ), 0, 1⟩ : ResourceMetrics) := by
    simp only [countNetworkCalls, networkCallCount, initialMetrics]
    rw [foldl_network]
    simp
  have h2 : analyzeLoops node (⟨0, 0, 0, (networkCallCount node : ℚ), 0, 1⟩ : ResourceMetrics) =
      ⟨0, 0, 0, (networkCallCount node : ℚ), 0, (10 : ℚ) ^ loopCount node⟩ := by
    simp only [analyzeLoops, loopCount]
    rw [foldl_loopdepth]
    simp
  have h3 : countIOOperations node
        (⟨0, 0, 0, (networkCallCount node : ℚ), 0, (10 : ℚ) ^ loopCount node⟩ : ResourceMetrics) =
      ⟨0, 0, 0, (networkCallCount node : ℚ), (ioOperationCount node : ℚ),
        (10 : ℚ) ^ loopCount node⟩ := by
    simp only [countIOOperations, ioOperationCount]
    rw [foldl_io]
    simp
  have h4 : detectAIModelUsage node
        (⟨0, 0, 0, (networkCallCount node : ℚ), (ioOperationCount node : ℚ),
          (10 : ℚ) ^ loopCount node⟩ : ResourceMetrics) =
      ⟨50 * (aiCallCount node : ℚ), 0, 0, (networkCallCount node : ℚ),
        (ioOperationCount node : ℚ),
        (10 : ℚ) ^ loopCount node * (1000 : ℚ) ^ aiCallCount node⟩ := by
    simp only [detectAIModelUsage, aiCallCount]
    rw [foldl_ai _ _ (by exact pow_ne_zero _ (by norm_num))]
    simp [mul_comm]
  have hc : ((⟨50 * (aiCallCount node : ℚ), 0, 0, (networkCallCount node : ℚ),
        (ioOperationCount node : ℚ),
        (10 : ℚ) ^ loopCount node * (1000 : ℚ) ^ aiCallCount node⟩ :
          ResourceMetrics)).computeComplexity ≠ 0 :=
    mul_ne_zero (pow_ne_zero _ (by norm_num)) (pow_ne_zero _ (by norm_num))
  simp only [analyzeFunction]
  rw [h1, h2, h3, h4, estimateEnergyUsage_eq _ hc]
  simp only [pow_mul_pow_eq, log10q_pow]
  refine congrArg₂ (fun (x : ℚ) (y : ℚ) =>
    (⟨x, y, 0, (networkCallCount node : ℚ), (ioOperationCount node : ℚ),
      (10 : ℚ) ^ (loopCount node + 3 * aiCallCount node)⟩ : ResourceMetrics)) ?_ ?_
  · push_cast
    ring
  · push_cast
    ring

theorem foldl_push_if {α β : Type} (c : α → Bool) (g : α → β) (l : List α) (acc : List β) :
    l.foldl (fun vs a => if c a then vs ++ [g a] else vs) acc =
      acc ++ l.filterMap (fun a => if c a then some (g a) else none) := by
  induction l generalizing acc with
  | nil => simp
  | cons a t ih =>
      by_cases h : c a <;> simp [List.foldl, h, ih, List.filterMap_cons]

theorem cbeStep_eq_spec (metrics : ResourceMetrics) (a : SDGAnnot) :
    (if otruthy a.carbonBudget && decide (metrics.energy ≠ 0) &&
        decide (metrics.energy > a.carbonBudget.getD 0) then
      some (cbeViolation metrics.energy (a.carbonBudget.getD 0))
    else none) = cbeCheckSpec metrics a := by
  rcases ha : a.carbonBudget with _ | b
  · simp [cbeCheckSpec, otruthy, ha]
  · by_cases hb : b = 0
    · simp [cbeCheckSpec, otruthy, ha, hb]
    · by_cases he : metrics.energy = 0
      · simp [cbeCheckSpec, otruthy, ha, hb, he]
      · by_cases hgt : metrics.energy > b
        · simp [cbeCheckSpec, otruthy, ha, hb, he, hgt]
        · simp [cbeCheckSpec, otruthy, ha, hb, he, hgt]

theorem detectViolations_eq (metrics : ResourceMetrics) (anns : List SDGAnnot) :
    detectViolations metrics anns =
      anns.filterMap (cbeCheckSpec metrics) ++
        (if metrics.computeComplexity > 1000 then [inefficientViolation] else []) ++
        (if metrics.energy > 10 ∧ anns = [] then [highImpactViolation] else []) := by
  have h2 : (decide (metrics.computeComplexity ≠ 0) &&
      decide (metrics.computeComplexity > 1000)) = decide (metrics.computeComplexity > 1000) := by
    by_cases h : metrics.computeComplexity > 1000
    · have hne : metrics.computeComplexity ≠ 0 :=
        ne_of_gt (lt_trans (by norm_num : (0 : ℚ) < 1000) h)
      simp [h, hne]
    · simp [h]
  have h3 : (decide (metrics.energy ≠ 0) && decide (metrics.energy > 10) &&
      (anns.length == 0)) = decide (metrics.energy > 10 ∧ anns = []) := by
    by_cases he : metrics.energy > 10
    · have hne : metrics.energy ≠ 0 := ne_of_gt (lt_trans (by norm_num : (0 : ℚ) < 10) he)
      by_cases hl : anns = []
      · simp [he, hne, hl]
      · simp [he, hne, hl, List.length_eq_zero]
    · simp [he]
  simp only [detectViolations]
  rw [foldl_push_if
      (fun annot => otruthy annot.carbonBudget && decide (metrics.energy ≠ 0) &&
        decide (metrics.energy > annot.carbonBudget.getD 0))
      (fun annot => cbeViolation metrics.energy (annot.carbonBudget.getD 0)) anns [],
    h2, h3]
  simp only [List.nil_append, cbeStep_eq_spec, decide_eq_true_eq]
  by_cases hc : metrics.computeComplexity > 1000 <;>
    by_cases hh : metrics.energy > 10 ∧ anns = [] <;>
      simp [hc, hh]

theorem foldl_score (l : List Violation) (s0 : ℚ) :
    l.foldl (fun s v => s - (if v.severity == Severity.error then 20 else 10)) s0 =
      s0 - (20 * (errorCount l : ℚ) + 10 * (warningCount l : ℚ)) := by
  induction l generalizing s0 with
  | nil => simp [errorCount, warningCount]
  | cons v t ih =>
      rw [List.foldl_cons, ih]
      unfold errorCount warningCount
      rw [List.filter_cons, List.filter_cons]
      cases v.severity
      · rw [if_neg (by decide), if_neg (by decide), if_pos (by decide), List.length_cons]
        push_cast
        ring
      · rw [if_pos (by decide), if_pos (by decide), if_neg (by decide), List.length_cons]
        push_cast
        ring

theorem applyUsage_fields (m : ResourceMetrics) (u : ResourceUsage) :
    ResourceTracker.applyUsage m u =
      { m with
        energy := m.energy + effAdd u.energy
        emissions := m.emissions + effAdd u.emissions
        memory := if otruthy u.memory then max m.memory (u.memory.getD 0) else m.memory
        networkCalls := m.networkCalls + effAdd u.networkCalls
        ioOperations := m.ioOperations + effAdd u.ioOperations } := by
  unfold ResourceTracker.applyUsage effAdd
  by_cases h1 : otruthy u.energy <;> by_cases h2 : otruthy u.emissions <;>
    by_cases h3 : otruthy u.memory <;> by_cases h4 : otruthy u.networkCalls <;>
      by_cases h5 : otruthy u.ioOperations <;>
        simp [h1, h2, h3, h4, h5, jsOr_zero, ResourceMetrics.mk.injEq]

theorem trackResource_unknown (s : ResourceTracker) (id rt : String) (u : ResourceUsage)
    (now : ℚ) (hm : mapGet s.metrics id = none) :
    s.trackResource id rt u now =
      { s with warnings := s.warnings ++ ["No active context found for ID: " ++ id] } := by
  unfold ResourceTracker.trackResource
  rw [hm]

theorem trackResource_metrics_self (s : ResourceTracker) (id rt : String) (u : ResourceUsage)
    (now : ℚ) (m : ResourceMetrics) (hm : mapGet s.metrics id = some m) :
    mapGet (s.trackResource id rt u now).metrics id =
      some (ResourceTracker.applyUsage m u) := by
  unfold ResourceTracker.trackResource ResourceTracker.applyUsage
  rw [hm]
  exact mapGet_mapSet_self _ _ _

theorem trackResource_metrics_preserve (s : ResourceTracker) (k id rt : String)
    (u : ResourceUsage) (now : ℚ) (h : id ≠ k) :
    mapGet (s.trackResource k rt u now).metrics id = mapGet s.metrics id := by
  unfold ResourceTracker.trackResource
  cases hm : mapGet s.metrics k
  · rfl
  · exact mapGet_mapSet_ne _ _ _ _ h

theorem trackResource_activeContexts (s : ResourceTracker) (id rt : String)
    (u : ResourceUsage) (now : ℚ) :
    (s.trackResource id rt u now).activeContexts = s.activeContexts := by
  unfold ResourceTracker.trackResource
  cases hm : mapGet s.metrics id <;> rfl

theorem trackResource_ctxHeap (s : ResourceTracker) (id rt : String)
    (u : ResourceUsage) (now : ℚ) :
    (s.trackResource id rt u now).ctxHeap = s.ctxHeap := by
  unfold ResourceTracker.trackResource
  cases hm : mapGet s.metrics id <;> rfl

theorem foldTrack_preserve (l : List (String × ℕ)) (s : ResourceTracker) (rt : String)
    (u : ResourceUsage) (now : ℚ) (id : String) (h : ∀ kv ∈ l, kv.1 ≠ id) :
    mapGet (l.foldl (fun st kv => st.trackResource kv.1 rt u now) s).metrics id =
      mapGet s.metrics id := by
  induction l generalizing s with
  | nil => rfl
  | cons kv t ih =>
      rw [List.foldl_cons, ih _ (fun x hx => h x (List.mem_cons_of_mem _ hx)),
        trackResource_metrics_preserve s kv.1 id rt u now
          (fun e => (h kv (List.mem_cons_self _ _)) e.symm)]

theorem foldTrack_mem (l : List (String × ℕ)) (s : ResourceTracker) (rt : String)
    (u : ResourceUsage) (now : ℚ) (id : String) (m : ResourceMetrics)
    (hnd : (l.map (fun kv => kv.1)).Nodup)
    (hmem : id ∈ l.map (fun kv => kv.1))
    (hm : mapGet s.metrics id = some m) :
    mapGet (l.foldl (fun st kv => st.trackResource kv.1 rt u now) s).metrics id =
      some (ResourceTracker.applyUsage m u) := by
  induction l generalizing s with
  | nil => cases hmem
  | cons kv t ih =>
      rw [List.map_cons, List.nodup_cons] at hnd
      rw [List.foldl_cons]
      rcases List.mem_cons.mp hmem with heq | hmem'
      · have heq' : id = kv.1 := heq
        subst heq'
        have hnotin : ∀ x ∈ t, x.1 ≠ kv.1 := by
          intro x hx e
          apply hnd.1
          rw [← e]
          exact List.mem_map_of_mem _ hx
        rw [foldTrack_preserve t _ rt u now kv.1 hnotin]
        exact trackResource_metrics_self s kv.1 rt u now m hm
      · have hne : id ≠ kv.1 := by
          intro e
          exact hnd.1 (e ▸ hmem')
        exact ih _ hnd.2 hmem'
          (by rw [trackResource_metrics_preserve s kv.1 id rt u now hne]; exact hm)

theorem heapGet_heapSet_self (h : List SDGContext) (p : ℕ) (c : SDGContext)
    (hp : p < h.length) : heapGet (heapSet h p c) p = c := by
  unfold heapGet heapSet
  rw [List.getD_eq_getElem?_getD, List.getElem?_set_self hp]
  rfl

theorem heapGet_heapSet_ne (h : List SDGContext) (p q : ℕ) (c : SDGContext)
    (hq : q ≠ p) : heapGet (heapSet h p c) q = heapGet h q := by
  unfold heapGet heapSet
  rw [List.getD_eq_getElem?_getD, List.getD_eq_getElem?_getD,
    List.getElem?_set_ne (fun e => hq e.symm)]

theorem endContext_eq (s : ResourceTracker) (id : String) (now : ℚ) (p : ℕ)
    (m : ResourceMetrics) (hp : mapGet s.activeContexts id = some p)
    (hm : mapGet s.metrics id = some m) :
    s.endContext id now =
      (some m,
        { s with
          activeContexts := mapDelete s.activeContexts id
          metrics := mapDelete s.metrics id
          events := s.events ++
            (if otruthy (heapGet s.ctxHeap p).carbonBudget && decide (m.energy ≠ 0) &&
                decide (m.energy > (heapGet s.ctxHeap p).carbonBudget.getD 0) then
              [cbeEvent id (heapGet s.ctxHeap p) m now]
            else []) ++
            [endedEvent id (heapGet s.ctxHeap p) m
              (now - ojsOr (heapGet s.ctxHeap p).startTime 0) now] }) := by
  unfold ResourceTracker.endContext
  rw [hp, hm]
  by_cases hb : ((otruthy (heapGet s.ctxHeap p).carbonBudget = true ∧ ¬ m.energy = 0) ∧
      (heapGet s.ctxHeap p).carbonBudget.getD 0 < m.energy)
  · simp [hb, cbeEvent, endedEvent, List.append_assoc]
  · simp [hb, endedEvent]

/-! Claim theorems. -/

/-- C2: code-bug evidence.  `ResourceAnalyzer.analyzeLoops` increments
`loopDepth` on every visited loop and never decrements it, so `maxDepth` is the
total number of iteration statements, not the maximum lexical nesting depth.
On a body with two sibling loops the spec's depth `D` is 1 (so `10 ^ D = 10`),
while the code stores `computeComplexity = 100`; `analyzeFunction` keeps that
value. -/
theorem C2_loop_depth_bug :
    specLoopDepth twoSiblingLoops = 1 ∧
    (10 : ℚ) ^ specLoopDepth twoSiblingLoops = 10 ∧
    (analyzeLoops twoSiblingLoops initialMetrics).computeComplexity = 100 ∧
    (analyzeFunction twoSiblingLoops).computeComplexity = 100 := by
  refine ⟨by decide, by norm_num [specLoopDepth, specLoopDepthList, twoSiblingLoops, isLoopNode],
    by decide, by decide⟩

/-- C4: `SDGCompiler.calculateScore` equals
`clamp (100 − 20×errors − 10×warnings + adjustment(energy) + 5×annotations)`
into `[0, 100]`, and is therefore always in `[0, 100]`. -/
theorem C4_score_formula (metrics : ResourceMetrics) (violations : List Violation)
    (anns : List SDGAnnot) :
    calculateScore metrics violations anns =
      max 0 (min 100 (100 - 20 * (errorCount violations : ℚ) -
        10 * (warningCount violations : ℚ) + adjustment metrics.energy +
        5 * (anns.length : ℚ))) ∧
    0 ≤ calculateScore metrics violations anns ∧
    calculateScore metrics violations anns ≤ 100 := by
  have hmain : calculateScore metrics violations anns =
      max 0 (min 100 (100 - 20 * (errorCount violations : ℚ) -
        10 * (warningCount violations : ℚ) + adjustment metrics.energy +
        5 * (anns.length : ℚ))) := by
    simp only [calculateScore, adjustment]
    rw [foldl_score]
    by_cases h1 : metrics.energy < 0.1
    · rw [if_pos h1, if_pos h1]
      refine congrArg (fun x => max 0 (min 100 x)) ?_
      ring
    · rw [if_neg h1, if_neg h1]
      by_cases h2 : metrics.energy > 10
      · rw [if_pos h2, if_pos h2]
        refine congrArg (fun x => max 0 (min 100 x)) ?_
        ring
      · rw [if_neg h2, if_neg h2]
        refine congrArg (fun x => max 0 (min 100 x)) ?_
        ring
  refine ⟨hmain, ?_, ?_⟩
  · rw [hmain]
    exact le_max_left _ _
  · rw [hmain]
    exact max_le (by norm_num) (min_le_left _ _)

/-- C5: for every body, the final energy equals
`0.01 + networkCalls×0.001 + ioOperations×0.0005 + log10(computeComplexity)×0.01`
plus 50 per detected heavy-inference call; emissions is energy × 500; and with
`computeComplexity` 1 and no detected calls the energy is exactly 0.01. -/
theorem C5_energy_formula (node : TsNode) :
    ((analyzeFunction node).energy =
      0.01 + (analyzeFunction node).networkCalls * 0.001 +
        (analyzeFunction node).ioOperations * 0.0005 +
        log10q (analyzeFunction node).computeComplexity * 0.01 +
        50 * (aiCallCount node : ℚ)) ∧
    (analyzeFunction node).emissions = (analyzeFunction node).energy * 500 ∧
    ((analyzeFunction node).computeComplexity = 1 ∧
        (analyzeFunction node).networkCalls = 0 ∧
        (analyzeFunction node).ioOperations = 0 ∧ aiCallCount node = 0 →
      (analyzeFunction node).energy = 0.01) := by
  have hnc : (analyzeFunction node).networkCalls = (networkCallCount node : ℚ) := by
    rw [analyzeFunction_eq node]
  have hio : (analyzeFunction node).ioOperations = (ioOperationCount node : ℚ) := by
    rw [analyzeFunction_eq node]
  have hcc : (analyzeFunction node).computeComplexity =
      (10 : ℚ) ^ loopCount node * (1000 : ℚ) ^ aiCallCount node := by
    rw [analyzeFunction_eq node]
  have hen : (analyzeFunction node).energy =
      50 * (aiCallCount node : ℚ) + (0.01 + (networkCallCount node : ℚ) * 0.001 +
        (ioOperationCount node : ℚ) * 0.0005 +
        ((loopCount node : ℚ) + 3 * (aiCallCount node : ℚ)) * 0.01) := by
    rw [analyzeFunction_eq node]
  have hem : (analyzeFunction node).emissions = (analyzeFunction node).energy * 500 := by
    rw [analyzeFunction_eq node]
  refine ⟨?_, hem, ?_⟩
  · rw [hen, hnc, hio, hcc, pow_mul_pow_eq, log10q_pow]
    push_cast
    ring
  · rintro ⟨h1, h2, h3, h4⟩
    rw [hcc, h4, pow_zero, mul_one] at h1
    rw [hnc] at h2
    rw [hio] at h3
    have hL : loopCount node = 0 := by
      by_contra hL
      have hone : ((10 ^ loopCount node : ℕ) : ℚ) = 1 := by
        push_cast
        exact h1
      have h10 : (10 : ℕ) ^ loopCount node = 1 := by exact_mod_cast hone
      have := Nat.one_lt_pow hL (by norm_num : 1 < 10)
      omega
    have h2' : networkCallCount node = 0 := by exact_mod_cast h2
    have h3' : ioOperationCount node = 0 := by exact_mod_cast h3
    rw [hen, h4, hL, h2', h3']
    norm_num

/-- C5 witness: the empty body has `computeComplexity` 1, no detected calls,
and energy exactly 0.01. -/
theorem C5_energy_witness :
    (analyzeFunction (.otherNode [])).computeComplexity = 1 ∧
    (analyzeFunction (.otherNode [])).energy = 0.01 :=
  ⟨by decide,
    (C5_energy_formula (.otherNode [])).2.2 ⟨by decide, by decide, by decide, by decide⟩⟩

unseal Rat.mul Rat.add Rat.sub Rat.inv Rat.ofScientific in
/-- C3 counterexample.  An annotation with `carbonBudget: 0` and metrics with
energy 5 produce no violation at all, although energy exceeds the declared
budget (the JS truthiness test skips a zero budget).  Moreover, for budget 1
and energy 1.5 the emitted message renders the budget as `1`, not to three
decimals. -/
theorem C3_counterexample :
    energy5Metrics.energy > 0 ∧ zeroBudgetAnnot.carbonBudget = some 0 ∧
    detectViolations energy5Metrics [zeroBudgetAnnot] = [] ∧
    detectViolations energy15tenthsMetrics [oneBudgetAnnot] =
      [{ type := .carbon_budget_exceeded
         severity := .error
         message := "Energy usage (1.500kWh) exceeds carbon budget (1kWh)"
         suggestion := some "Consider optimizing algorithms or reducing network calls" }] ∧
    "Energy usage (1.500kWh) exceeds carbon budget (1kWh)" ≠
      "Energy usage (1.500kWh) exceeds carbon budget (1.000kWh)" := by
  refine ⟨by norm_num [energy5Metrics], rfl, by decide, by decide, by decide⟩

/-- C3 (amended): violations are emitted in the fixed order
`carbon_budget_exceeded` (one per annotation whose budget is present and
nonzero, in annotation order, exactly when the energy is nonzero and exceeds
the budget; the message shows the energy to three decimals and the budget in
JavaScript default number formatting, see `cbeViolation`), then
`inefficient_algorithm` iff `computeComplexity > 1000`, then
`high_impact_no_annotation` iff `energy > 10` and the annotation list is
empty. -/
theorem C3_detectViolations_amended (metrics : ResourceMetrics) (anns : List SDGAnnot) :
    detectViolations metrics anns =
      anns.filterMap (fun a =>
        match a.carbonBudget with
        | some b =>
            if b ≠ 0 ∧ metrics.energy ≠ 0 ∧ metrics.energy > b then
              some (cbeViolation metrics.energy b)
            else none
        | none => none) ++
      (if metrics.computeComplexity > 1000 then [inefficientViolation] else []) ++
      (if metrics.energy > 10 ∧ anns = [] then [highImpactViolation] else []) := by
  rw [detectViolations_eq]
  rfl

unseal Rat.mul Rat.add Rat.sub Rat.inv Rat.ofScientific in
/-- C1 counterexample.  After `start("c1")` and one `accumulate` carrying only
energy, the runtime accumulator holds energy 1 but emissions 0, so
`emissions == energy × 500` fails after that update. -/
theorem C1_counterexample :
    ResourceTracker.getCurrentMetrics c1State "c1" = some c1Metrics ∧
    ¬ (c1Metrics.emissions = c1Metrics.energy * 500) := by
  exact ⟨rfl, by decide⟩

/-- C1 (amended): the static estimator's output always satisfies
`emissions = energy × 500`; the runtime accumulator satisfies it at
initialization, and `trackResource` preserves it whenever the accumulated
partial is itself balanced (`effAdd u.emissions = effAdd u.energy × 500`), but
the tracker does not enforce it for arbitrary partials. -/
theorem C1_emissions_amended :
    (∀ node : TsNode, emissionsInv (analyzeFunction node)) ∧
    emissionsInv initialMetrics ∧
    (∀ (s : ResourceTracker) (id rt : String) (u : ResourceUsage) (now : ℚ)
        (m m' : ResourceMetrics),
      mapGet s.metrics id = some m → emissionsInv m →
      effAdd u.emissions = effAdd u.energy * 500 →
      mapGet (s.trackResource id rt u now).metrics id = some m' →
      emissionsInv m') := by
  refine ⟨?_, ?_, ?_⟩
  · intro node
    exact estimateEnergyUsage_emissions _
  · show (0 : ℚ) = 0 * 500
    norm_num
  · intro s id rt u now m m' hm hinv hu hm'
    rw [trackResource_metrics_self s id rt u now m hm, Option.some.injEq] at hm'
    subst hm'
    unfold emissionsInv at hinv ⊢
    rw [applyUsage_fields]
    show m.emissions + effAdd u.emissions = (m.energy + effAdd u.energy) * 500
    rw [hinv, hu]
    ring

unseal Rat.mul Rat.add Rat.sub Rat.inv Rat.ofScientific in
/-- C6: `trackResource` sums the additive fields (`energy`, `emissions`,
`networkCalls`, `ioOperations`) into the accumulator and takes the running
maximum for `memory`; `endContext` returns the accumulated total; Scenario C
(`accumulate 0.2` then `accumulate 0.3`) ends with energy 0.5. -/
theorem C6_accumulate_sums :
    (∀ (s : ResourceTracker) (id rt : String) (u : ResourceUsage) (now : ℚ)
        (m : ResourceMetrics),
      mapGet s.metrics id = some m → 0 ≤ m.memory →
      mapGet (s.trackResource id rt u now).metrics id =
        some { m with
               energy := m.energy + u.energy.getD 0
               emissions := m.emissions + u.emissions.getD 0
               memory := max m.memory (u.memory.getD 0)
               networkCalls := m.networkCalls + u.networkCalls.getD 0
               ioOperations := m.ioOperations + u.ioOperations.getD 0 }) ∧
    (∀ (s : ResourceTracker) (id : String) (now : ℚ) (p : ℕ) (m : ResourceMetrics),
      mapGet s.activeContexts id = some p → mapGet s.metrics id = some m →
      (s.endContext id now).1 = some m) ∧
    ((scenCState.endContext "c1" 110).1 =
      some { energy := 1 / 2, emissions := 0, memory := 0, networkCalls := 0
             ioOperations := 0, computeComplexity := 1 }) := by
  refine ⟨?_, ?_, ?_⟩
  · intro s id rt u now m hm hmem
    rw [trackResource_metrics_self s id rt u now m hm, applyUsage_fields]
    simp only [effAdd_eq_getD]
    have hmemfield : (if otruthy u.memory then max m.memory (u.memory.getD 0) else m.memory) =
        max m.memory (u.memory.getD 0) := by
      by_cases h : otruthy u.memory = true
      · rw [if_pos h]
      · rw [if_neg h, otruthy_false_getD u.memory h, max_eq_left hmem]
    rw [hmemfield]
  · intro s id now p m hp hm
    rw [endContext_eq s id now p m hp hm]
  · have h := endContext_eq scenCState "c1" 110 0
      { energy := 1 / 2, emissions := 0, memory := 0, networkCalls := 0
        ioOperations := 0, computeComplexity := 1 } (by decide) (by decide)
    rw [h]

unseal Rat.mul Rat.add Rat.sub Rat.inv Rat.ofScientific in
/-- C6 witness: one accumulate of 0.2 kWh on a freshly started context. -/
theorem C6_accumulate_witness :
    mapGet (((freshTracker [plainCtx]).startContext "c1" 0 100).trackResource "c1" "t"
        { noUsage with energy := some (1 / 5) } 101).metrics "c1" =
      some { energy := 1 / 5, emissions := 0, memory := 0, networkCalls := 0
             ioOperations := 0, computeComplexity := 1 } := by
  have h := C6_accumulate_sums.1 ((freshTracker [plainCtx]).startContext "c1" 0 100) "c1" "t"
    { noUsage with energy := some (1 / 5) } 101 initialMetrics rfl (by norm_num [initialMetrics])
  rw [h]
  decide

unseal Rat.mul Rat.add Rat.sub Rat.inv Rat.ofScientific in
/-- C7 counterexample.  A live context that declared `carbonBudget: 0` whose
accumulated energy is 1 (which exceeds the declared budget 0) emits only
`context_ended` on `endContext` — no `carbon_budget_exceeded` event — because
the JS truthiness test skips a zero budget. -/
theorem C7_counterexample :
    (heapGet c7State.ctxHeap 0).carbonBudget = some 0 ∧
    mapGet c7State.metrics "c1" = some c1Metrics ∧
    c1Metrics.energy > (heapGet c7State.ctxHeap 0).carbonBudget.getD 0 ∧
    ((c7State.endContext "c1" 5).2.events.map (fun e => e.type)) =
      [.context_ended] := by
  refine ⟨rfl, rfl, by decide, by decide⟩

/-- C7 (amended): for a registered id, `endContext` emits
`carbon_budget_exceeded` strictly before `context_ended` exactly when the
declared budget is nonzero and the accumulated energy is nonzero and exceeds
it; it always emits `context_ended` with the elapsed duration, removes the
entry from both maps (so a later metrics lookup is not-found) and returns the
final accumulated metrics. -/
theorem C7_endContext_amended (s : ResourceTracker) (id : String) (now : ℚ) (p : ℕ)
    (m : ResourceMetrics) (hp : mapGet s.activeContexts id = some p)
    (hm : mapGet s.metrics id = some m) :
    (s.endContext id now).1 = some m ∧
    (s.endContext id now).2.events =
      s.events ++
        (if (heapGet s.ctxHeap p).carbonBudget.getD 0 ≠ 0 ∧ m.energy ≠ 0 ∧
            m.energy > (heapGet s.ctxHeap p).carbonBudget.getD 0 then
          [cbeEvent id (heapGet s.ctxHeap p) m now]
        else []) ++
        [endedEvent id (heapGet s.ctxHeap p) m
          (now - ojsOr (heapGet s.ctxHeap p).startTime 0) now] ∧
    mapGet (s.endContext id now).2.activeContexts id = none ∧
    mapGet (s.endContext id now).2.metrics id = none ∧
    ResourceTracker.getCurrentMetrics (s.endContext id now).2 id = none := by
  rw [endContext_eq s id now p m hp hm]
  have hbool : (otruthy (heapGet s.ctxHeap p).carbonBudget && decide (m.energy ≠ 0) &&
      decide (m.energy > (heapGet s.ctxHeap p).carbonBudget.getD 0)) = true ↔
      ((heapGet s.ctxHeap p).carbonBudget.getD 0 ≠ 0 ∧ m.energy ≠ 0 ∧
        m.energy > (heapGet s.ctxHeap p).carbonBudget.getD 0) := by
    rcases ho : (heapGet s.ctxHeap p).carbonBudget with _ | b
    · simp [otruthy, ho]
    · by_cases hb0 : b = 0 <;> simp [otruthy, ho, hb0, and_assoc]
  refine ⟨rfl, ?_, mapGet_mapDelete_self _ _, mapGet_mapDelete_self _ _,
    mapGet_mapDelete_self _ _⟩
  by_cases hb : ((heapGet s.ctxHeap p).carbonBudget.getD 0 ≠ 0 ∧ m.energy ≠ 0 ∧
      m.energy > (heapGet s.ctxHeap p).carbonBudget.getD 0)
  · rw [if_pos (hbool.mpr hb), if_pos hb]
  · rw [if_neg (fun hc => hb (hbool.mp hc)), if_neg hb]

unseal Rat.mul Rat.add Rat.sub Rat.inv Rat.ofScientific in
/-- C7 witness: a context with budget 0.5 and energy 1 emits
`carbon_budget_exceeded` and then `context_ended`, in that order. -/
theorem C7_endContext_witness :
    mapGet c7WitState.activeContexts "c1" = some 0 ∧
    ((c7WitState.endContext "c1" 5).2.events.map (fun e => e.type)) =
      [.carbon_budget_exceeded, .context_ended] := by
  refine ⟨rfl, ?_⟩
  have h := (C7_endContext_amended c7WitState "c1" 5 0 c1Metrics rfl rfl).2.1
  rw [h]
  decide

/-- C8: for an id with no registered accumulator, `trackResource` only logs a
warning: the registry (both maps), the heap and the event list are unchanged,
and a subsequent current-metrics lookup for that id reports not-found;
Scenario D instantiates this for `accumulate("unknown", {energy: 1})`. -/
theorem C8_unknown_accumulate :
    (∀ (s : ResourceTracker) (id rt : String) (u : ResourceUsage) (now : ℚ),
      mapGet s.metrics id = none →
      ((s.trackResource id rt u now).metrics = s.metrics ∧
       (s.trackResource id rt u now).activeContexts = s.activeContexts ∧
       (s.trackResource id rt u now).ctxHeap = s.ctxHeap ∧
       (s.trackResource id rt u now).events = s.events ∧
       (s.trackResource id rt u now).warnings =
         s.warnings ++ ["No active context found for ID: " ++ id] ∧
       ResourceTracker.getCurrentMetrics (s.trackResource id rt u now) id = none)) ∧
    (ResourceTracker.getCurrentMetrics
        (scenD1State.trackResource "unknown" "t" { noUsage with energy := some 1 } 101)
        "unknown" = none ∧
      (scenD1State.trackResource "unknown" "t"
        { noUsage with energy := some 1 } 101).metrics = scenD1State.metrics) := by
  constructor
  · intro s id rt u now hm
    rw [trackResource_unknown s id rt u now hm]
    exact ⟨rfl, rfl, rfl, rfl, rfl, hm⟩
  · exact ⟨rfl, rfl⟩

/-- C8 witness: Scenario D's call applied through the general statement. -/
theorem C8_unknown_witness :
    mapGet scenD1State.metrics "unknown" = none ∧
    (scenD1State.trackResource "unknown" "t"
        { noUsage with energy := some 1 } 101).warnings =
      scenD1State.warnings ++ ["No active context found for ID: " ++ "unknown"] :=
  ⟨rfl,
    (C8_unknown_accumulate.1 scenD1State "unknown" "t"
      { noUsage with energy := some 1 } 101 rfl).2.2.2.2.1⟩

unseal Rat.mul Rat.add Rat.sub Rat.inv Rat.ofScientific in
/-- C9: the module-level broadcast `trackResource` iterates over a snapshot of
the active-context map and applies the per-id accumulate to every active
context: for any active id (ids unique in the registry) with accumulator `m`,
the accumulator afterwards is `applyUsage m u`; Scenario E shows one broadcast
of `{networkCalls: 1}` incrementing both active contexts by exactly 1. -/
theorem C9_broadcast :
    (∀ (s : ResourceTracker) (rt : String) (u : ResourceUsage) (now : ℚ)
        (id : String) (m : ResourceMetrics),
      (s.activeContexts.map (fun kv => kv.1)).Nodup →
      id ∈ s.activeContexts.map (fun kv => kv.1) →
      mapGet s.metrics id = some m →
      mapGet (trackResource s rt u now).metrics id =
        some (ResourceTracker.applyUsage m u)) ∧
    (ResourceTracker.getCurrentMetrics scenEState "a" =
        some { initialMetrics with networkCalls := 1 } ∧
      ResourceTracker.getCurrentMetrics scenEState "b" =
        some { initialMetrics with networkCalls := 1 }) := by
  constructor
  · intro s rt u now id m hnd hmem hm
    exact foldTrack_mem s.activeContexts s rt u now id m hnd hmem hm
  · exact ⟨by decide, by decide⟩

unseal Rat.mul Rat.add Rat.sub Rat.inv Rat.ofScientific in
/-- C9 witness: the general broadcast statement applied to Scenario E's state
and the context `"a"`. -/
theorem C9_broadcast_witness :
    mapGet scenEState.metrics "a" =
      some (ResourceTracker.applyUsage initialMetrics
        { noUsage with networkCalls := some 1 }) :=
  C9_broadcast.1
    (((freshTracker [plainCtx, plainCtx]).startContext "a" 0 1).startContext "b" 1 2)
    "network" { noUsage with networkCalls := some 1 } 3 "a" initialMetrics
    (by decide) (by decide) rfl

/-- C10: `startContext` overwrites the `startTime` field of the caller-owned
context object in place (at its heap address `p`) and registers that same
address — not a copy — under the id; other heap cells are untouched, and a
later accumulate changes neither the heap nor the registered address, so the
caller's object and the registered context stay aliased while the context is
alive. -/
theorem C10_startContext_aliasing (s : ResourceTracker) (id : String) (p : ℕ) (now : ℚ)
    (hp : p < s.ctxHeap.length) :
    heapGet (s.startContext id p now).ctxHeap p =
      { heapGet s.ctxHeap p with startTime := some now } ∧
    mapGet (s.startContext id p now).activeContexts id = some p ∧
    (∀ q, q ≠ p → heapGet (s.startContext id p now).ctxHeap q = heapGet s.ctxHeap q) ∧
    (∀ (id' rt : String) (u : ResourceUsage) (now' : ℚ),
      ((s.startContext id p now).trackResource id' rt u now').ctxHeap =
        (s.startContext id p now).ctxHeap ∧
      mapGet ((s.startContext id p now).trackResource id' rt u now').activeContexts id =
        some p) := by
  refine ⟨heapGet_heapSet_self _ _ _ hp, mapGet_mapSet_self _ _ _, ?_, ?_⟩
  · intro q hq
    exact heapGet_heapSet_ne _ _ _ _ hq
  · intro id' rt u now'
    refine ⟨trackResource_ctxHeap _ _ _ _ _, ?_⟩
    rw [trackResource_activeContexts]
    exact mapGet_mapSet_self _ _ _

/-- C10 witness: a one-object heap. -/
theorem C10_startContext_witness :
    (0 : ℕ) < (freshTracker [plainCtx]).ctxHeap.length ∧
    heapGet ((freshTracker [plainCtx]).startContext "c1" 0 100).ctxHeap 0 =
      { heapGet (freshTracker [plainCtx]).ctxHeap 0 with startTime := some 100 } :=
  ⟨by decide,
    (C10_startContext_aliasing (freshTracker [plainCtx]) "c1" 0 100 (by decide)).1⟩

unseal Rat.mul Rat.add Rat.sub Rat.inv Rat.ofScientific in
/-- C1 witness: a started context whose accumulator receives one balanced
partial keeps the invariant. -/
theorem C1_emissions_witness :
    mapGet scenD1State.metrics "c1" = some initialMetrics ∧
    emissionsInv balancedMetrics :=
  ⟨rfl,
    C1_emissions_amended.2.2 scenD1State "c1" "manual" balancedUsage 101 initialMetrics
      balancedMetrics rfl (by show (0 : ℚ) = 0 * 500; norm_num)
      (by decide) rfl⟩

end SDGScript
